import Mathlib

/-!
Shallow embedding of the Typer autonomous-driving simulation core
(`src/types/game.ts`, `src/utils/neuralNetwork.ts`, `src/utils/physics.ts`,
`src/utils/gameEngine.ts`, and the `GeneticAlgorithm` class).

Conventions of the embedding:
* JavaScript numbers are modelled as real numbers (`ℝ`); the claims under
  study do not depend on rounding of IEEE doubles, except for one floor
  computation that is discussed at `eliteCount` below.
* `Math.random()` is modelled as an explicit stream `r : ℕ → ℝ` of draws,
  consumed at an index that is threaded through every function that draws;
  a genuine stream satisfies `0 ≤ r i < 1` for every `i`.
* A JavaScript runtime error (a thrown `Error`, or a `TypeError` from
  reading a property of `undefined`) is modelled by an `Option` result
  being `none`.
* In-place mutation of a car or a network is modelled by returning the
  updated value; JavaScript value-copies of arrays (`[...row]`) become the
  identity on immutable lists.
-/

set_option maxHeartbeats 1000000

/-- `Vector2D` from `src/types/game.ts`. -/
structure Vector2D where
  x : ℝ
  y : ℝ

/-- `Sensor` from `src/types/game.ts`. -/
structure Sensor where
  angle : ℝ
  length : ℝ
  distance : ℝ
  hit : Bool
  endPoint : Vector2D

/-- `NeuralNetwork` from `src/types/game.ts`. -/
structure NeuralNetwork where
  inputNodes : ℕ
  hiddenNodes : ℕ
  outputNodes : ℕ
  weightsInputHidden : List (List ℝ)
  weightsHiddenOutput : List (List ℝ)
  biasHidden : List ℝ
  biasOutput : List ℝ

/-- `Car` from `src/types/game.ts`.  The declared interface omits the
`braking` field, but every consumer (`gameEngine.ts`, `physics.ts`, the
genetic algorithm) reads and writes `car.braking`, so the embedding carries
it. -/
structure Car where
  id : String
  position : Vector2D
  velocity : Vector2D
  angle : ℝ
  speed : ℝ
  maxSpeed : ℝ
  acceleration : ℝ
  braking : ℝ
  friction : ℝ
  turnSpeed : ℝ
  sensors : List Sensor
  fitness : ℝ
  alive : Bool
  distanceTraveled : ℝ
  checkpointsPassed : ℕ
  brain : NeuralNetwork
  color : String

/-- `Wall` from `src/types/game.ts`. -/
structure Wall where
  start : Vector2D
  last : Vector2D

/-- `Checkpoint` from `src/types/game.ts` (`end` is a Lean keyword, the
segment endpoint is called `last` here, as for `Wall`). -/
structure Checkpoint where
  start : Vector2D
  last : Vector2D
  id : ℕ

/-- `Track` from `src/types/game.ts`. -/
structure Track where
  walls : List Wall
  checkpoints : List Checkpoint
  startPosition : Vector2D
  startAngle : ℝ

/-- `GameState` from `src/types/game.ts`, together with the extra
`generationTime` field that the `GameEngine` constructor puts in the state
literal and that `GeneticAlgorithm.calculateFitness` reads. -/
structure GameState where
  cars : List Car
  generation : ℕ
  bestFitness : ℝ
  isRunning : Bool
  timeElapsed : ℝ
  generationTime : ℝ
  maxTime : ℝ

/-! ## NeuralNetworkUtils (`src/utils/neuralNetwork.ts`) -/

/-- `NeuralNetworkUtils.sigmoid`. -/
noncomputable def sigmoid (x : ℝ) : ℝ := 1 / (1 + Real.exp (-x))

/-- `NeuralNetworkUtils.feedForward`.  The source throws a
dimension-mismatch `Error` when `inputs.length !== network.inputNodes`
(modelled by `none`); otherwise it computes the hidden layer and then the
output layer with nested accumulation loops.  Out-of-range array reads
(possible only on a network whose matrices do not match its declared node
counts) are modelled by the default 0, where JavaScript would produce
`undefined`/`NaN`. -/
noncomputable def feedForward (network : NeuralNetwork) (inputs : List ℝ) :
    Option (List ℝ) :=
  if inputs.length ≠ network.inputNodes then none
  else
    let hiddenValues := (List.range network.hiddenNodes).map fun j =>
      sigmoid ((List.range network.inputNodes).foldl
        (fun sum i =>
          sum + inputs.getD i 0 * ((network.weightsInputHidden.getD i []).getD j 0))
        (network.biasHidden.getD j 0))
    let outputValues := (List.range network.outputNodes).map fun j =>
      sigmoid ((List.range network.hiddenNodes).foldl
        (fun sum i =>
          sum + hiddenValues.getD i 0 * ((network.weightsHiddenOutput.getD i []).getD j 0))
        (network.biasOutput.getD j 0))
    some outputValues

/-- `NeuralNetworkUtils.copyNetwork`: a deep copy of all matrices; the
spread copy `[...row]` of an immutable list is the list itself. -/
def copyNetwork (network : NeuralNetwork) : NeuralNetwork :=
  { inputNodes := network.inputNodes
    hiddenNodes := network.hiddenNodes
    outputNodes := network.outputNodes
    weightsInputHidden := network.weightsInputHidden.map (fun row => row)
    weightsHiddenOutput := network.weightsHiddenOutput.map (fun row => row)
    biasHidden := network.biasHidden.map (fun x => x)
    biasOutput := network.biasOutput.map (fun x => x) }

/-- One row of `NeuralNetworkUtils.mutate`: each entry is perturbed by
`(Math.random() - 0.5) * mutationStrength` when `Math.random() < mutationRate`.
The guard draw is consumed first; the perturbation draw is consumed only
when the guard succeeds, exactly as in the source loops. -/
noncomputable def mutateList (r : ℕ → ℝ) (rate strength : ℝ) :
    List ℝ → ℕ → List ℝ × ℕ
  | [], k => ([], k)
  | x :: xs, k =>
    if r k < rate then
      let pr := mutateList r rate strength xs (k + 2)
      ((x + (r (k + 1) - 0.5) * strength) :: pr.1, pr.2)
    else
      let pr := mutateList r rate strength xs (k + 1)
      (x :: pr.1, pr.2)

/-- Row-by-row mutation of a weight matrix. -/
noncomputable def mutateMatrix (r : ℕ → ℝ) (rate strength : ℝ) :
    List (List ℝ) → ℕ → List (List ℝ) × ℕ
  | [], k => ([], k)
  | row :: rows, k =>
    let pr := mutateList r rate strength row k
    let ps := mutateMatrix r rate strength rows pr.2
    (pr.1 :: ps.1, ps.2)

/-- `NeuralNetworkUtils.mutate`: copies the network, then mutates
input-hidden weights, hidden-output weights, hidden biases and output
biases, in this order. -/
noncomputable def mutate (r : ℕ → ℝ) (rate strength : ℝ)
    (network : NeuralNetwork) (k : ℕ) : NeuralNetwork × ℕ :=
  let m := copyNetwork network
  let a := mutateMatrix r rate strength m.weightsInputHidden k
  let b := mutateMatrix r rate strength m.weightsHiddenOutput a.2
  let c := mutateList r rate strength m.biasHidden b.2
  let d := mutateList r rate strength m.biasOutput c.2
  ({ m with
      weightsInputHidden := a.1
      weightsHiddenOutput := b.1
      biasHidden := c.1
      biasOutput := d.1 }, d.2)

/-- One row of `NeuralNetworkUtils.crossover`: each entry of the child
(a copy of parent 1) is replaced by the matching entry of parent 2 with
probability 0.5, one draw per entry.  A missing parent-2 entry (mismatched
dimensions) is modelled by the default 0 where JavaScript reads
`undefined`. -/
noncomputable def crossList (r : ℕ → ℝ) :
    List ℝ → List ℝ → ℕ → List ℝ × ℕ
  | [], _, k => ([], k)
  | x :: xs, ys, k =>
    let x' := if r k < 0.5 then ys.headD 0 else x
    let pr := crossList r xs ys.tail (k + 1)
    (x' :: pr.1, pr.2)

/-- Row-by-row crossover of a weight matrix. -/
noncomputable def crossMatrix (r : ℕ → ℝ) :
    List (List ℝ) → List (List ℝ) → ℕ → List (List ℝ) × ℕ
  | [], _, k => ([], k)
  | row :: rows, qs, k =>
    let pr := crossList r row (qs.headD []) k
    let ps := crossMatrix r rows qs.tail pr.2
    (pr.1 :: ps.1, ps.2)

/-- `NeuralNetworkUtils.crossover`: the child starts as a copy of
parent 1; input-hidden weights, hidden-output weights, hidden biases and
output biases are crossed in this order. -/
noncomputable def crossover (r : ℕ → ℝ) (parent1 parent2 : NeuralNetwork)
    (k : ℕ) : NeuralNetwork × ℕ :=
  let child := copyNetwork parent1
  let a := crossMatrix r child.weightsInputHidden parent2.weightsInputHidden k
  let b := crossMatrix r child.weightsHiddenOutput parent2.weightsHiddenOutput a.2
  let c := crossList r child.biasHidden parent2.biasHidden b.2
  let d := crossList r child.biasOutput parent2.biasOutput c.2
  ({ child with
      weightsInputHidden := a.1
      weightsHiddenOutput := b.1
      biasHidden := c.1
      biasOutput := d.1 }, d.2)

/-- A list of `count` draws of `NeuralNetworkUtils.randomWeight`, i.e.
`(Math.random() - 0.5) * 2`. -/
noncomputable def randList (r : ℕ → ℝ) : ℕ → ℕ → List ℝ × ℕ
  | 0, k => ([], k)
  | n + 1, k =>
    let pr := randList r n (k + 1)
    (((r k - 0.5) * 2) :: pr.1, pr.2)

/-- A `rows × cols` matrix of random weights, filled row by row. -/
noncomputable def randMatrix (r : ℕ → ℝ) : ℕ → ℕ → ℕ → List (List ℝ) × ℕ
  | 0, _, k => ([], k)
  | n + 1, cols, k =>
    let pr := randList r cols k
    let ps := randMatrix r n cols pr.2
    (pr.1 :: ps.1, ps.2)

/-- `NeuralNetworkUtils.createRandomNetwork`: input-hidden weights, then
hidden-output weights, then hidden biases, then output biases. -/
noncomputable def createRandomNetwork (r : ℕ → ℝ)
    (inputNodes hiddenNodes outputNodes : ℕ) (k : ℕ) : NeuralNetwork × ℕ :=
  let a := randMatrix r inputNodes hiddenNodes k
  let b := randMatrix r hiddenNodes outputNodes a.2
  let c := randList r hiddenNodes b.2
  let d := randList r outputNodes c.2
  ({ inputNodes := inputNodes
     hiddenNodes := hiddenNodes
     outputNodes := outputNodes
     weightsInputHidden := a.1
     weightsHiddenOutput := b.1
     biasHidden := c.1
     biasOutput := d.1 }, d.2)

/-- `NeuralNetworkUtils.getNetworkInputs`: normalised sensor distances,
then speed, angle sine, angle cosine and braking. -/
noncomputable def getNetworkInputs (sensorDistances : List ℝ)
    (speed angle braking : ℝ) : List ℝ :=
  sensorDistances.map (fun d => min (d / 200) 1) ++
    [min (speed / 200) 1, Real.sin angle, Real.cos angle, min (braking / 100) 1]

/-- The control signals decoded from the three network outputs. -/
structure Controls where
  steering : ℝ
  acceleration : ℝ
  braking : ℝ

/-- `NeuralNetworkUtils.interpretOutputs`. -/
noncomputable def interpretOutputs (outputs : List ℝ) : Controls :=
  { steering := outputs.getD 0 0 * 2 - 1
    acceleration := outputs.getD 1 0
    braking := outputs.getD 2 0 }

/-! ## Physics (`src/utils/physics.ts`) -/

/-- `Physics.distance`. -/
noncomputable def distance (p1 p2 : Vector2D) : ℝ :=
  Real.sqrt ((p1.x - p2.x) ^ 2 + (p1.y - p2.y) ^ 2)

/-- `Physics.lineIntersection`: parametric segment-segment intersection;
`none` when the denominator is within `1e-10` of zero or when either
interpolation parameter falls outside `[0, 1]`. -/
noncomputable def lineIntersection (line1Start line1End line2Start line2End :
    Vector2D) : Option Vector2D :=
  let x1 := line1Start.x; let y1 := line1Start.y
  let x2 := line1End.x; let y2 := line1End.y
  let x3 := line2Start.x; let y3 := line2Start.y
  let x4 := line2End.x; let y4 := line2End.y
  let denom := (x1 - x2) * (y3 - y4) - (y1 - y2) * (x3 - x4)
  if |denom| < 1 / 10 ^ 10 then none
  else
    let t := ((x1 - x3) * (y3 - y4) - (y1 - y3) * (x3 - x4)) / denom
    let u := -((x1 - x2) * (y1 - y3) - (y1 - y2) * (x1 - x3)) / denom
    if 0 ≤ t ∧ t ≤ 1 ∧ 0 ≤ u ∧ u ≤ 1 then
      some { x := x1 + t * (x2 - x1), y := y1 + t * (y2 - y1) }
    else none

/-- `Physics.updateCarPhysics`: throttle scaled by `deltaTime`, braking
applied instantaneously, snap-to-zero below 0.05, multiplicative friction,
clamp to non-negative, then position integration with the final speed. -/
noncomputable def updateCarPhysics (car : Car) (deltaTime : ℝ) : Car :=
  let speed1 := car.speed + car.acceleration * 2.0 * deltaTime
  let speed2 := speed1 - 6.0 * car.braking
  let speed3 := if speed2 < 0.05 then 0 else speed2
  let speed4 := speed3 * 0.90
  let speed5 := max speed4 0
  { car with
      speed := speed5
      position :=
        { x := car.position.x + Real.cos car.angle * speed5 * deltaTime
          y := car.position.y + Real.sin car.angle * speed5 * deltaTime } }

/-- `Physics.pointToLineDistance`: distance from a point to a segment with
the projection parameter clamped to `[0, 1]`; a zero-length segment falls
back to the distance to its single point. -/
noncomputable def pointToLineDistance (point lineStart lineEnd : Vector2D) : ℝ :=
  let A := point.x - lineStart.x
  let B := point.y - lineStart.y
  let C := lineEnd.x - lineStart.x
  let D := lineEnd.y - lineStart.y
  let dot := A * C + B * D
  let lenSq := C * C + D * D
  if lenSq = 0 then Real.sqrt (A * A + B * B)
  else
    let param := max 0 (min 1 (dot / lenSq))
    let xx := lineStart.x + param * C
    let yy := lineStart.y + param * D
    let dx := point.x - xx
    let dy := point.y - yy
    Real.sqrt (dx * dx + dy * dy)

/-- `Physics.checkWallCollision`: the car centre is within the fixed
collision radius 8 of some wall segment. -/
def checkWallCollision (car : Car) (walls : List Wall) : Prop :=
  ∃ w ∈ walls, pointToLineDistance car.position w.start w.last < 8

noncomputable instance (car : Car) (walls : List Wall) : Decidable (checkWallCollision car walls) :=
  inferInstanceAs (Decidable (∃ w ∈ walls, pointToLineDistance car.position w.start w.last < 8))

/-- The full-length endpoint of a sensor ray, cast from the car position at
`car.angle + sensor.angle`. -/
noncomputable def sensorRayEnd (pos : Vector2D) (carAngle : ℝ) (sensor : Sensor) :
    Vector2D :=
  { x := pos.x + Real.cos (carAngle + sensor.angle) * sensor.length
    y := pos.y + Real.sin (carAngle + sensor.angle) * sensor.length }

/-- The wall-loop body of `Physics.updateSensors`: keep the nearest
intersection found so far.  The ray tested is always the original
full-length ray `(pos, rayEnd)`. -/
noncomputable def sensorWallStep (pos : Vector2D) (rayEnd : Vector2D)
    (sen : Sensor) (wall : Wall) : Sensor :=
  match lineIntersection pos rayEnd wall.start wall.last with
  | none => sen
  | some p =>
    let d := distance pos p
    if d < sen.distance then
      { sen with distance := d, endPoint := p, hit := true }
    else sen

/-- Per-sensor body of `Physics.updateSensors`: reset the sensor to a full-length
miss, then fold over every wall. -/
noncomputable def updateSensor (pos : Vector2D) (carAngle : ℝ)
    (walls : List Wall) (sensor : Sensor) : Sensor :=
  let rayEnd := sensorRayEnd pos carAngle sensor
  let init : Sensor :=
    { sensor with endPoint := rayEnd, distance := sensor.length, hit := false }
  walls.foldl (sensorWallStep pos rayEnd) init

/-- `Physics.updateSensors`: every sensor of the car is recomputed. -/
noncomputable def updateSensors (car : Car) (walls : List Wall) : Car :=
  { car with sensors := car.sensors.map (updateSensor car.position car.angle walls) }

/-! ## GeneticAlgorithm (`GeneticAlgorithm` class) -/

/-- The colour palette of `GeneticAlgorithm.getRandomColor`. -/
def gaColors : List String :=
  ["#FF6B6B", "#4ECDC4", "#45B7D1", "#96CEB4", "#FFEAA7",
   "#DDA0DD", "#98D8C8", "#F7DC6F", "#BB8FCE", "#85C1E9"]

/-- `Math.floor(Math.random() * len)` used as an array index. -/
noncomputable def randIndex (r : ℕ → ℝ) (k : ℕ) (len : ℕ) : ℕ :=
  (⌊r k * len⌋).toNat

/-- `GeneticAlgorithm.getRandomColor`: one draw. -/
noncomputable def randomColor (r : ℕ → ℝ) (k : ℕ) : String × ℕ :=
  (gaColors.getD (randIndex r k gaColors.length) "#FF6B6B", k + 1)

/-- `GeneticAlgorithm.createSensors`: `count` rays spread from -90 to +90
degrees relative to the heading, each of length 300. -/
noncomputable def createSensors (count : ℕ) : List Sensor :=
  (List.range count).map fun i =>
    { angle := -Real.pi / 2 + i * (Real.pi / (count - 1 : ℕ))
      length := 300
      distance := 300
      hit := false
      endPoint := { x := 0, y := 0 } }

/-- `GeneticAlgorithm.calculateFitness`: distance, checkpoint and survival
terms, a multiplicative death penalty, a constant braking penalty, floored
at 0; the result is written into the car. -/
noncomputable def calculateFitness (gameState : GameState) (car : Car) : Car :=
  let f0 : ℝ := car.distanceTraveled * 0.05 + (car.checkpointsPassed : ℝ) * 800 +
    gameState.generationTime / 100
  let f1 := if car.alive = false then f0 * 0.3 else f0
  let f2 := if car.braking > 0.8 then f1 - 50 else f1
  { car with fitness := max 0 f2 }

/-- Stable insertion into a descending-by-fitness list: the inserted car
goes before the first car whose fitness is not larger.  Used to model the
stable in-place `population.sort((a, b) => b.fitness - a.fitness)`. -/
noncomputable def insertByFitness (x : Car) : List Car → List Car
  | [] => [x]
  | y :: ys => if y.fitness ≤ x.fitness then x :: y :: ys else y :: insertByFitness x ys

/-- Stable descending-by-fitness sort.  JavaScript `Array.prototype.sort`
with the consistent comparator `(a, b) => b.fitness - a.fitness` produces
the unique stable descending order, which this insertion sort also
produces. -/
noncomputable def sortByFitnessDesc : List Car → List Car
  | [] => []
  | x :: xs => insertByFitness x (sortByFitnessDesc xs)

/-- `Math.floor(population.length * 0.3)`, the elite-pool size of
`evolvePopulation`.  For every feasible `n` (below `2 ^ 49`), the IEEE
double computation `Math.floor(n * 0.3)` agrees with `⌊3n/10⌋`: the double
nearest 0.3 is within relative error `2e-17` of 3/10, so `n * 0.3` rounds
to the double nearest `3n/10`, whose floor is `⌊3n/10⌋`. -/
def eliteCount (n : ℕ) : ℕ := 3 * n / 10

/-- `GeneticAlgorithm.createCarFromBrain`: a fresh car at the start pose
with a copy of the given brain and one random-colour draw. -/
noncomputable def createCarFromBrain (r : ℕ → ℝ) (brain : NeuralNetwork)
    (startPosition : Vector2D) (startAngle : ℝ) (cid : String) (k : ℕ) :
    Car × ℕ :=
  let cc := randomColor r k
  ({ id := cid
     position := { x := startPosition.x, y := startPosition.y }
     velocity := { x := 0, y := 0 }
     angle := startAngle
     speed := 0
     maxSpeed := 150
     acceleration := 0
     braking := 0
     friction := 0.95
     turnSpeed := 0.03
     sensors := createSensors 5
     fitness := 0
     alive := true
     distanceTraveled := 0
     checkpointsPassed := 0
     brain := copyNetwork brain
     color := cc.1 }, cc.2)

/-- One iteration of the reproduction loop of `evolvePopulation`: two
parents drawn uniformly from the elite pool, crossover with probability
0.7 (otherwise a plain copy of parent 1), adaptive mutation, then a fresh
car.  Indexing an empty elite pool is the JavaScript `TypeError` on
`undefined.brain`, modelled by `none`. -/
noncomputable def makeChild (r : ℕ → ℝ) (elite : List Car)
    (rate strength : ℝ) (startPosition : Vector2D) (startAngle : ℝ)
    (cid : String) (k : ℕ) : Option (Car × ℕ) := do
  let parent1 ← elite[randIndex r k elite.length]?
  let parent2 ← elite[randIndex r (k + 1) elite.length]?
  let pr :=
    if r (k + 2) < 0.7 then crossover r parent1.brain parent2.brain (k + 3)
    else (copyNetwork parent1.brain, k + 3)
  let ps := mutate r rate strength pr.1 pr.2
  some (createCarFromBrain r ps.1 startPosition startAngle cid ps.2)

/-- The `while (newPopulation.length < population.length)` loop of
`evolvePopulation`, counted down by the number of children still needed;
`idx` is `newPopulation.length` at the time each child is created (used in
its id `gen_<idx>`). -/
noncomputable def buildChildren (r : ℕ → ℝ) (elite : List Car)
    (rate strength : ℝ) (startPosition : Vector2D) (startAngle : ℝ) :
    ℕ → ℕ → ℕ → Option (List Car)
  | 0, _, _ => some []
  | n + 1, idx, k => do
    let pr ← makeChild r elite rate strength startPosition startAngle
      ("gen_" ++ toString idx) k
    let rest ← buildChildren r elite rate strength startPosition startAngle n
      (idx + 1) pr.2
    some (pr.1 :: rest)

/-- The body of `evolvePopulation` after fitness recomputation and the
in-place descending sort: diversity-adaptive mutation parameters, the
elite pool, the unchanged best car, then the reproduction loop.  An empty
(sorted) population makes `population[0].brain` throw, modelled by
`none`. -/
noncomputable def evolveSorted (r : ℕ → ℝ) (startPosition : Vector2D)
    (startAngle : ℝ) (k : ℕ) : List Car → Option (List Car)
  | [] => none
  | best :: rest => do
    let sorted := best :: rest
    let fitnessValues := sorted.map (fun car => car.fitness)
    let maxFitness := rest.foldl (fun a car => max a car.fitness) best.fitness
    let minFitness := rest.foldl (fun a car => min a car.fitness) best.fitness
    let fitnessRange := maxFitness - minFitness
    let averageFitness := fitnessValues.foldl (fun a b => a + b) 0 /
      (fitnessValues.length : ℝ)
    let diversityThreshold := max 100 (averageFitness * 0.1)
    let adaptiveMutationRate : ℝ :=
      if fitnessRange < diversityThreshold then 0.8 else 0.5
    let adaptiveMutationStrength : ℝ :=
      if fitnessRange < diversityThreshold then 1.5 else 0.3
    let eliteParents := sorted.take (eliteCount sorted.length)
    let pr := createCarFromBrain r best.brain startPosition startAngle "best_elite" k
    let children ← buildChildren r eliteParents adaptiveMutationRate
      adaptiveMutationStrength startPosition startAngle (sorted.length - 1) 1 pr.2
    some (pr.1 :: children)

/-- `GeneticAlgorithm.evolvePopulation`: recompute every fitness, sort
descending (stable), then reproduce. -/
noncomputable def evolvePopulation (r : ℕ → ℝ) (population : List Car)
    (startPosition : Vector2D) (startAngle : ℝ) (gameState : GameState)
    (k : ℕ) : Option (List Car) :=
  evolveSorted r startPosition startAngle k
    (sortByFitnessDesc (population.map (calculateFitness gameState)))

/-- `GeneticAlgorithm.getBestCar`: `reduce` keeping the first car of
maximal fitness; `reduce` of an empty array throws, modelled by `none`. -/
noncomputable def getBestCar : List Car → Option Car
  | [] => none
  | c :: cs =>
    some (cs.foldl (fun best cur => if best.fitness < cur.fitness then cur else best) c)

/-- `GeneticAlgorithm.getAliveCount`. -/
def getAliveCount (population : List Car) : ℕ :=
  (population.filter (fun car => car.alive)).length

/-- The body of the population-creation loop of
`GeneticAlgorithm.createInitialPopulation`: `n` cars with ids `car_<i>`
onwards, each with a fresh random 9-8-3 brain and a random colour. -/
noncomputable def buildCars (r : ℕ → ℝ) (startPosition : Vector2D)
    (startAngle : ℝ) : ℕ → ℕ → ℕ → List Car × ℕ
  | 0, _, k => ([], k)
  | n + 1, i, k =>
    let pb := createRandomNetwork r 9 8 3 k
    let pc := randomColor r pb.2
    let car : Car :=
      { id := "car_" ++ toString i
        position := { x := startPosition.x, y := startPosition.y }
        velocity := { x := 0, y := 0 }
        angle := startAngle
        speed := 0
        maxSpeed := 125
        acceleration := 0
        braking := 0
        friction := 0.92
        turnSpeed := 6
        sensors := createSensors 5
        fitness := 0
        alive := true
        distanceTraveled := 0
        checkpointsPassed := 0
        brain := pb.1
        color := pc.1 }
    let pr := buildCars r startPosition startAngle n (i + 1) pc.2
    (car :: pr.1, pr.2)

/-- `GeneticAlgorithm.createInitialPopulation`: the loop
`for (let i = 0; i < populationSize; i++)` runs `max(populationSize, 0)`
times (`Int.toNat` of the requested size). -/
noncomputable def createInitialPopulation (r : ℕ → ℝ) (populationSize : ℤ)
    (startPosition : Vector2D) (startAngle : ℝ) (k : ℕ) : List Car × ℕ :=
  buildCars r startPosition startAngle populationSize.toNat 0 k

/-! ## GameEngine (`src/utils/gameEngine.ts`) -/

/-- The private mutable state of a `GameEngine` instance. -/
structure Engine where
  gameState : GameState
  track : Track
  lastUpdateTime : ℝ
  generationTime : ℝ
  maxGenerationTime : ℝ
  playerCar : Option Car
  gameStartTime : ℝ
  playerRespawnTime : ℝ

/-- `GameEngine.startupDelay`: 3 seconds. -/
def startupDelay : ℝ := 3000

/-- The per-car pose reset used by `resetPlayerCar` (and, with the same
fields, by `setTrack`/`startRace`). -/
noncomputable def resetCarToStart (track : Track) (car : Car) : Car :=
  { car with
      position := { x := track.startPosition.x, y := track.startPosition.y }
      velocity := { x := 0, y := 0 }
      angle := track.startAngle
      speed := 0
      acceleration := 0
      braking := 0
      alive := true
      fitness := 0
      distanceTraveled := 0
      checkpointsPassed := 0 }

/-- The checkpoint loop body of `GameEngine.checkCheckpointCollisions`:
a checkpoint within the collision radius 8 advances the counter only when
its id equals `checkpointsPassed % totalCheckpoints` at the moment of the
test. -/
noncomputable def checkpointStep (total : ℕ) (car : Car) (checkpoint : Checkpoint) :
    Car :=
  if pointToLineDistance car.position checkpoint.start checkpoint.last < 8 then
    if checkpoint.id = car.checkpointsPassed % total then
      { car with checkpointsPassed := car.checkpointsPassed + 1 }
    else car
  else car

/-- `GameEngine.checkCheckpointCollisions`: fold the step over the track's
checkpoints in order. -/
noncomputable def checkCheckpointCollisions (checkpoints : List Checkpoint)
    (car : Car) : Car :=
  checkpoints.foldl (checkpointStep checkpoints.length) car

/-- The per-car body of the update loop of `GameEngine.update` for one
car: sensors, network inference and control interpretation (skipped for
the player car), physics, wall collision (kills and possibly arms the
player respawn timer), checkpoint test, fitness.  The accumulator carries
the cars processed so far and the current `playerRespawnTime`. -/
noncomputable def tickCarStep (walls : List Wall)
    (checkpoints : List Checkpoint) (gs : GameState)
    (adjustedDeltaTime currentTime : ℝ) (st : List Car × ℝ) (car : Car) :
    Option (List Car × ℝ) :=
  if car.alive = false then some (st.1 ++ [car], st.2)
  else
    let car1 := updateSensors car walls
    let proc : Option Car :=
      if car1.id ≠ "player" then
        match feedForward car1.brain
          (getNetworkInputs (car1.sensors.map (fun s => s.distance))
            car1.speed car1.angle car1.braking) with
        | none => none
        | some outputs =>
          let o := interpretOutputs outputs
          let c := { car1 with
            angle := car1.angle + o.steering * car1.turnSpeed
            braking := o.braking }
          some (if o.braking > 0.1 then { c with acceleration := 0 }
                else { c with acceleration := min 1 (max 0 o.acceleration) })
      else some car1
    match proc with
    | none => none
    | some car2 =>
      let car3 := updateCarPhysics car2 adjustedDeltaTime
      if checkWallCollision car3 walls then
        let car4 := { car3 with alive := false }
        let respawn := if car4.id = "player" ∧ st.2 = 0 then currentTime + 1000 else st.2
        some (st.1 ++ [car4], respawn)
      else
        let car4 := checkCheckpointCollisions checkpoints car3
        let car5 := calculateFitness gs car4
        some (st.1 ++ [car5], st.2)

/-- `GameEngine.nextGeneration`: evolve the AI cars, reset the generation
clocks, re-read the (possibly changed) max-time limit, re-anchor the
wall-clock and startup-delay anchors, and remove the player car. -/
noncomputable def nextGeneration (e : Engine) (currentTime : ℝ) (r : ℕ → ℝ)
    (k : ℕ) : Option Engine := do
  let aiCars := e.gameState.cars.filter (fun car => car.id != "player")
  let newCars ← evolvePopulation r aiCars e.track.startPosition
    e.track.startAngle e.gameState k
  let gs := { e.gameState with
    cars := newCars
    generation := e.gameState.generation + 1
    generationTime := 0
    timeElapsed := 0 }
  let e1 := { e with
    gameState := gs
    generationTime := 0
    maxGenerationTime := gs.maxTime
    lastUpdateTime := currentTime
    gameStartTime := currentTime
    playerRespawnTime := 0 }
  some (if e1.playerCar.isSome then
          { e1 with
            gameState := { e1.gameState with
              cars := e1.gameState.cars.filter (fun car => car.id != "player") }
            playerCar := none }
        else e1)

/-- The player-respawn check near the end of `GameEngine.update`: when the
respawn timer is armed and has expired, the player car (both the aliased
entry in the population array and the engine's own reference) is reset to
the start pose and the timer is cleared. -/
noncomputable def tickRespawn (e1 : Engine) (currentTime : ℝ) : Engine :=
  if 0 < e1.playerRespawnTime ∧ e1.playerRespawnTime ≤ currentTime then
    { e1 with
      gameState := { e1.gameState with
        cars := e1.gameState.cars.map
          (fun car => if car.id = "player" then resetCarToStart e1.track car else car) }
      playerCar := e1.playerCar.map (resetCarToStart e1.track)
      playerRespawnTime := 0 }
  else e1

/-- The generation-end check at the end of `GameEngine.update`: roll the
generation over when no car is alive or the generation clock has reached
the limit, then report the generation clock in `timeElapsed`. -/
noncomputable def tickEnd (e2 : Engine) (currentTime : ℝ) (r : ℕ → ℝ) (k : ℕ) :
    Option Engine :=
  (if getAliveCount e2.gameState.cars = 0 ∨ e2.maxGenerationTime ≤ e2.generationTime
   then nextGeneration e2 currentTime r k
   else some e2).map
    fun e3 => { e3 with gameState := { e3.gameState with timeElapsed := e3.generationTime } }

/-- The post-startup-delay body of `GameEngine.update`: clamp and scale the
wall-clock delta, advance the generation clock, update every car, refresh
the best fitness (crashing on an empty population, modelled by `none`),
respawn the player car when its timer expires, and roll the generation
over when needed. -/
noncomputable def tick (e : Engine) (currentTime : ℝ) (r : ℕ → ℝ) (k : ℕ) :
    Option Engine := do
  let deltaTime := min ((currentTime - e.lastUpdateTime) / 1000) 0.016
  let adjustedDeltaTime := deltaTime * 8.0
  let generationTime := e.generationTime + adjustedDeltaTime * 1000
  let gs0 := { e.gameState with
    generationTime := generationTime
    maxTime := e.maxGenerationTime }
  let st ← e.gameState.cars.foldlM
    (tickCarStep e.track.walls e.track.checkpoints gs0 adjustedDeltaTime currentTime)
    (([], e.playerRespawnTime) : List Car × ℝ)
  let best ← getBestCar st.1
  let gs1 := { gs0 with cars := st.1, bestFitness := max gs0.bestFitness best.fitness }
  let e1 := { e with
    gameState := gs1
    lastUpdateTime := currentTime
    generationTime := generationTime
    playerRespawnTime := st.2 }
  tickEnd (tickRespawn e1 currentTime) currentTime r k

/-- `GameEngine.update`: a no-op when not running; during the first
`startupDelay` milliseconds after the startup anchor it only overwrites
`timeElapsed` with the whole-seconds countdown `ceil(remaining / 1000)`;
afterwards it runs the full simulation tick. -/
noncomputable def update (e : Engine) (currentTime : ℝ) (r : ℕ → ℝ) (k : ℕ) :
    Option Engine :=
  if e.gameState.isRunning = false then some e
  else
    let timeSinceStart := currentTime - e.gameStartTime
    if timeSinceStart < startupDelay then
      some { e with gameState := { e.gameState with
        timeElapsed := ((⌈(startupDelay - timeSinceStart) / 1000⌉ : ℤ) : ℝ) } }
    else tick e currentTime r k

/-- `GameEngine.start`: raise the running flag and re-anchor both clocks. -/
noncomputable def start (e : Engine) (currentTime : ℝ) : Engine :=
  { e with
    gameState := { e.gameState with isRunning := true }
    gameStartTime := currentTime
    lastUpdateTime := currentTime }

/-- `GameEngine.stop`. -/
noncomputable def stop (e : Engine) : Engine :=
  { e with gameState := { e.gameState with isRunning := false } }

/-- `GameEngine.reset`: regenerate a population of the current AI-car
count, zero every counter and timer, re-anchor the clocks and remove the
player car. -/
noncomputable def reset (e : Engine) (currentTime : ℝ) (r : ℕ → ℝ) (k : ℕ) :
    Engine :=
  let aiCarCount := (e.gameState.cars.filter (fun car => car.id != "player")).length
  let pr := createInitialPopulation r (aiCarCount : ℤ) e.track.startPosition
    e.track.startAngle k
  let e1 := { e with
    gameState := { e.gameState with
      cars := pr.1
      generation := 1
      bestFitness := 0
      timeElapsed := 0
      generationTime := 0
      isRunning := false }
    generationTime := 0
    lastUpdateTime := currentTime
    gameStartTime := currentTime
    playerRespawnTime := 0 }
  if e1.playerCar.isSome then
    { e1 with
      gameState := { e1.gameState with
        cars := e1.gameState.cars.filter (fun car => car.id != "player") }
      playerCar := none }
  else e1

/-- `GameEngine.setPopulationSize`: whenever the requested size differs
from the current population length, the population is replaced by a
freshly created one of the requested size — with no validation of the
argument. -/
noncomputable def setPopulationSize (e : Engine) (size : ℤ) (r : ℕ → ℝ)
    (k : ℕ) : Engine :=
  if size ≠ (e.gameState.cars.length : ℤ) then
    { e with gameState := { e.gameState with
      cars := (createInitialPopulation r size e.track.startPosition
        e.track.startAngle k).1 } }
  else e

/-- `GameEngine.setMaxGenerationTime`: unconditionally overwrite the
limit, with no validation of the argument. -/
noncomputable def setMaxGenerationTime (e : Engine) (limit : ℝ) : Engine :=
  { e with
    maxGenerationTime := limit
    gameState := { e.gameState with maxTime := limit } }

/-! ## Concrete example inputs -/

/-- The origin. -/
noncomputable def zeroVec : Vector2D := { x := 0, y := 0 }

/-- A small fixed brain used by concrete example cars. -/
noncomputable def exBrain : NeuralNetwork :=
  { inputNodes := 1, hiddenNodes := 1, outputNodes := 1
    weightsInputHidden := [[1]], weightsHiddenOutput := [[2]]
    biasHidden := [3], biasOutput := [4] }

/-- A dead example car with zero distance and zero checkpoints, as in the
all-dead-generation scenario of the spec. -/
noncomputable def deadCar : Car :=
  { id := "car_0", position := zeroVec, velocity := zeroVec, angle := 0
    speed := 0, maxSpeed := 125, acceleration := 0, braking := 0
    friction := 0.92, turnSpeed := 6, sensors := [], fitness := 0
    alive := false, distanceTraveled := 0, checkpointsPassed := 0
    brain := exBrain, color := "#FF6B6B" }

/-- An example game state (only `generationTime` matters to fitness). -/
noncomputable def gsZero : GameState :=
  { cars := [], generation := 1, bestFitness := 0, isRunning := false
    timeElapsed := 0, generationTime := 0, maxTime := 15000 }

/-- A degenerate random stream drawing 0 forever (a legal value of
`Math.random()`). -/
noncomputable def rZero : ℕ → ℝ := fun _ => 0

/-- An empty example track. -/
noncomputable def track0 : Track :=
  { walls := [], checkpoints := [], startPosition := zeroVec, startAngle := 0 }

/-- An all-dead population of size 2 (elite pool `floor(2 * 0.3) = 0`). -/
noncomputable def allDeadPop2 : List Car :=
  [deadCar, { deadCar with id := "car_1" }]

/-- An all-dead population of size 3 (elite pool `floor(3 * 0.3) = 0`). -/
noncomputable def allDeadPop3 : List Car :=
  [deadCar, { deadCar with id := "car_1" }, { deadCar with id := "car_2" }]

/-- An all-dead population of size 4 (elite pool `floor(4 * 0.3) = 1`). -/
noncomputable def allDeadPop4 : List Car :=
  [deadCar, { deadCar with id := "car_1" }, { deadCar with id := "car_2" },
   { deadCar with id := "car_3" }]

/-- A small well-formed 2-2-1 network for the feed-forward witness. -/
noncomputable def exNet : NeuralNetwork :=
  { inputNodes := 2, hiddenNodes := 2, outputNodes := 1
    weightsInputHidden := [[1, 0], [0, 1]], weightsHiddenOutput := [[1], [1]]
    biasHidden := [0, 0], biasOutput := [0] }

/-- An example engine: one dead AI car, not running, limit 15000. -/
noncomputable def exEngine : Engine :=
  { gameState := { cars := [deadCar], generation := 1, bestFitness := 0
                   isRunning := false, timeElapsed := 0, generationTime := 0
                   maxTime := 15000 }
    track := track0, lastUpdateTime := 0, generationTime := 0
    maxGenerationTime := 15000, playerCar := none, gameStartTime := 0
    playerRespawnTime := 0 }

/-- The example engine in the running state (as left by `start` at time 0). -/
noncomputable def exRunningEngine : Engine :=
  { exEngine with gameState := { exEngine.gameState with isRunning := true } }

/-- A fast example car: far above its own `maxSpeed`, no inputs. -/
noncomputable def fastCar : Car :=
  { deadCar with id := "car_9", speed := 10, maxSpeed := 3, alive := true }

/-- An example sensor (forward ray of length 300). -/
noncomputable def exSensor : Sensor :=
  { angle := 0, length := 300, distance := 300, hit := false, endPoint := zeroVec }

/-- A checkpoint with id 5 whose segment passes through the origin. -/
noncomputable def exCheckpoint5 : Checkpoint :=
  { start := { x := -10, y := 0 }, last := { x := 10, y := 0 }, id := 5 }

/-- An example car carrying one forward sensor. -/
noncomputable def sensorCar : Car := { deadCar with sensors := [exSensor] }

/-! ## Helper lemmas -/

theorem length_insertByFitness (x : Car) (l : List Car) :
    (insertByFitness x l).length = l.length + 1 := by
  induction l with
  | nil => rfl
  | cons y ys ih =>
    by_cases h : y.fitness ≤ x.fitness
    · simp [insertByFitness, h]
    · simp [insertByFitness, h, ih]

theorem mem_insertByFitness {y : Car} (x : Car) (l : List Car) :
    y ∈ insertByFitness x l ↔ y = x ∨ y ∈ l := by
  induction l with
  | nil => simp [insertByFitness]
  | cons z zs ih =>
    by_cases h : z.fitness ≤ x.fitness
    · simp [insertByFitness, h]
    · simp [insertByFitness, h, ih]
      tauto

theorem length_sortByFitnessDesc (l : List Car) :
    (sortByFitnessDesc l).length = l.length := by
  induction l with
  | nil => rfl
  | cons x xs ih => simp [sortByFitnessDesc, length_insertByFitness, ih]

theorem mem_sortByFitnessDesc {y : Car} (l : List Car) :
    y ∈ sortByFitnessDesc l ↔ y ∈ l := by
  induction l with
  | nil => simp [sortByFitnessDesc]
  | cons x xs ih => simp [sortByFitnessDesc, mem_insertByFitness, ih]

theorem sortByFitnessDesc_head_max (l : List Car) (b : Car) (t : List Car)
    (hsort : sortByFitnessDesc l = b :: t) :
    ∀ x ∈ l, x.fitness ≤ b.fitness := by
  induction l generalizing b t with
  | nil => simp [sortByFitnessDesc] at hsort
  | cons a l ih =>
    rw [sortByFitnessDesc] at hsort
    rcases hs : sortByFitnessDesc l with _ | ⟨b', t'⟩
    · rw [hs] at hsort
      simp [insertByFitness] at hsort
      have hl : l = [] := by
        have := length_sortByFitnessDesc l
        rw [hs] at this
        exact List.length_eq_zero.mp this.symm
      subst hl
      intro x hx
      simp at hx
      subst hx
      rw [hsort.1]
    · rw [hs] at hsort
      have hmax := ih b' t' hs
      by_cases h : b'.fitness ≤ a.fitness
      · rw [insertByFitness, if_pos h] at hsort
        have hb : b = a := (List.head_eq_of_cons_eq hsort).symm
        subst hb
        intro x hx
        rcases List.mem_cons.mp hx with hx | hx
        · subst hx; exact le_refl _
        · exact le_trans (hmax x hx) h
      · rw [insertByFitness, if_neg h] at hsort
        have hb : b = b' := (List.head_eq_of_cons_eq hsort).symm
        subst hb
        intro x hx
        rcases List.mem_cons.mp hx with hx | hx
        · subst hx; exact le_of_lt (lt_of_not_le h)
        · exact hmax x hx

theorem sortByFitnessDesc_head_mem (l : List Car) (b : Car) (t : List Car)
    (hsort : sortByFitnessDesc l = b :: t) : b ∈ l := by
  have : b ∈ sortByFitnessDesc l := by rw [hsort]; exact List.mem_cons_self _ _
  exact (mem_sortByFitnessDesc l).mp this

theorem copyNetwork_eq (net : NeuralNetwork) : copyNetwork net = net := by
  cases net
  simp [copyNetwork]

theorem mutateList_zero_rate (r : ℕ → ℝ) (strength : ℝ)
    (hr : ∀ i, 0 ≤ r i) (xs : List ℝ) (k : ℕ) :
    (mutateList r 0 strength xs k).1 = xs := by
  induction xs generalizing k with
  | nil => rfl
  | cons x xs ih =>
    have h : ¬ r k < 0 := not_lt.mpr (hr k)
    simp [mutateList, h, ih]

theorem mutateMatrix_zero_rate (r : ℕ → ℝ) (strength : ℝ)
    (hr : ∀ i, 0 ≤ r i) (rows : List (List ℝ)) (k : ℕ) :
    (mutateMatrix r 0 strength rows k).1 = rows := by
  induction rows generalizing k with
  | nil => rfl
  | cons row rows ih =>
    simp [mutateMatrix, mutateList_zero_rate r strength hr, ih]

theorem randIndex_lt (r : ℕ → ℝ) (k n : ℕ) (h0 : 0 ≤ r k) (h1 : r k < 1)
    (hn : 1 ≤ n) : randIndex r k n < n := by
  have hnR : (0 : ℝ) < (n : ℝ) := by exact_mod_cast Nat.lt_of_lt_of_le Nat.zero_lt_one hn
  have hmul : r k * (n : ℝ) < (n : ℝ) := by
    have := mul_lt_mul_of_pos_right h1 hnR
    simpa using this
  have hfl : ⌊r k * (n : ℝ)⌋ < (n : ℤ) := Int.floor_lt.mpr (by exact_mod_cast hmul)
  have hnz : n ≠ 0 := by omega
  exact (Int.toNat_lt' hnz).mpr hfl

theorem makeChild_isSome (r : ℕ → ℝ) (elite : List Car) (rate strength : ℝ)
    (sp : Vector2D) (sa : ℝ) (cid : String) (k : ℕ)
    (helite : elite ≠ []) (hr : ∀ i, 0 ≤ r i ∧ r i < 1) :
    ∃ pr, makeChild r elite rate strength sp sa cid k = some pr := by
  have hlen : 1 ≤ elite.length := List.length_pos.mpr helite
  have h1 : randIndex r k elite.length < elite.length :=
    randIndex_lt r k elite.length (hr k).1 (hr k).2 hlen
  have h2 : randIndex r (k + 1) elite.length < elite.length :=
    randIndex_lt r (k + 1) elite.length (hr (k + 1)).1 (hr (k + 1)).2 hlen
  unfold makeChild
  rw [List.getElem?_eq_getElem h1, List.getElem?_eq_getElem h2]
  exact ⟨_, rfl⟩

theorem buildChildren_isSome (r : ℕ → ℝ) (elite : List Car)
    (rate strength : ℝ) (sp : Vector2D) (sa : ℝ)
    (helite : elite ≠ []) (hr : ∀ i, 0 ≤ r i ∧ r i < 1) :
    ∀ n idx k, ∃ cs, buildChildren r elite rate strength sp sa n idx k = some cs ∧
      cs.length = n := by
  intro n
  induction n with
  | zero => exact fun idx k => ⟨[], rfl, rfl⟩
  | succ n ih =>
    intro idx k
    obtain ⟨pr, hpr⟩ := makeChild_isSome r elite rate strength sp sa
      ("gen_" ++ toString idx) k helite hr
    obtain ⟨cs, hcs, hlen⟩ := ih (idx + 1) pr.2
    refine ⟨pr.1 :: cs, ?_, by simp [hlen]⟩
    simp [buildChildren, hpr, hcs]

theorem buildChildren_nil_none (r : ℕ → ℝ) (rate strength : ℝ)
    (sp : Vector2D) (sa : ℝ) (n idx k : ℕ) :
    buildChildren r [] rate strength sp sa (n + 1) idx k = none := by
  simp [buildChildren, makeChild]

theorem createCarFromBrain_brain (r : ℕ → ℝ) (brain : NeuralNetwork)
    (sp : Vector2D) (sa : ℝ) (cid : String) (k : ℕ) :
    (createCarFromBrain r brain sp sa cid k).1.brain = brain := by
  simp [createCarFromBrain, copyNetwork_eq]

/-- Shared success lemma for `evolvePopulation`: on a population of size 1
(where the reproduction loop never runs) or of size at least 4 (where the
elite pool is non-empty), evolution succeeds, preserves the population
size, and its first output car carries an exact copy of the brain of a
maximal-fitness individual of the recomputed input population. -/
theorem evolvePopulation_success (r : ℕ → ℝ) (pop : List Car)
    (sp : Vector2D) (sa : ℝ) (gs : GameState) (k : ℕ)
    (hr : ∀ i, 0 ≤ r i ∧ r i < 1) (hn : pop.length = 1 ∨ 4 ≤ pop.length) :
    ∃ out, evolvePopulation r pop sp sa gs k = some out ∧
      out.length = pop.length ∧
      ∃ b ∈ pop.map (calculateFitness gs),
        (∀ x ∈ pop.map (calculateFitness gs), x.fitness ≤ b.fitness) ∧
        ∃ c ∈ out, c.brain = b.brain := by
  have hpos : 1 ≤ pop.length := by rcases hn with h | h <;> omega
  have hlen : (sortByFitnessDesc (pop.map (calculateFitness gs))).length = pop.length := by
    rw [length_sortByFitnessDesc, List.length_map]
  rcases hs : sortByFitnessDesc (pop.map (calculateFitness gs)) with _ | ⟨best, rest⟩
  · rw [hs] at hlen; simp at hlen; omega
  · rw [hs] at hlen
    have hmem : best ∈ pop.map (calculateFitness gs) :=
      sortByFitnessDesc_head_mem _ best rest hs
    have hmax : ∀ x ∈ pop.map (calculateFitness gs), x.fitness ≤ best.fitness :=
      sortByFitnessDesc_head_max _ best rest hs
    rcases hn with h1 | h4
    · -- population of size 1: no children are needed
      have hrest : rest = [] := by
        have : rest.length = 0 := by simp at hlen; omega
        exact List.length_eq_zero.mp this
      subst hrest
      refine ⟨[(createCarFromBrain r best.brain sp sa "best_elite" k).1],
        ?_, by simp [h1], best, hmem, hmax,
        ⟨_, List.mem_cons_self _ _, createCarFromBrain_brain _ _ _ _ _ _⟩⟩
      rw [evolvePopulation, hs]
      simp [evolveSorted, buildChildren]
    · -- population of size at least 4: the elite pool is non-empty
      have hec : 1 ≤ eliteCount (best :: rest).length := by
        rw [hlen]; unfold eliteCount; omega
      have helite : (best :: rest).take (eliteCount (best :: rest).length) ≠ [] := by
        intro he
        have hl := congrArg List.length he
        rw [List.length_take] at hl
        simp only [List.length_nil] at hl
        rcases Nat.min_eq_zero_iff.mp hl with h | h
        · omega
        · simp at h
      obtain ⟨cs, hcs, hcslen⟩ := buildChildren_isSome r
        ((best :: rest).take (eliteCount (best :: rest).length)) _ _ sp sa helite hr
        ((best :: rest).length - 1) 1
        (createCarFromBrain r best.brain sp sa "best_elite" k).2
      refine ⟨(createCarFromBrain r best.brain sp sa "best_elite" k).1 :: cs,
        ?_, ?_, best, hmem, hmax,
        ⟨_, List.mem_cons_self _ _, createCarFromBrain_brain _ _ _ _ _ _⟩⟩
      · rw [evolvePopulation, hs]
        simp only [evolveSorted, Option.bind_eq_bind]
        rw [hcs]
        rfl
      · simp only [List.length_cons, hcslen, hlen]
        omega

/-- Shared failure lemma for `evolvePopulation`: on a population of size 2
or 3, `Math.floor(length * 0.3)` is 0, the elite pool is empty, and the
first parent lookup of the reproduction loop fails (the JavaScript
`TypeError` on `undefined.brain`). -/
theorem evolvePopulation_fails_small (r : ℕ → ℝ) (pop : List Car)
    (sp : Vector2D) (sa : ℝ) (gs : GameState) (k : ℕ)
    (hn : pop.length = 2 ∨ pop.length = 3) :
    evolvePopulation r pop sp sa gs k = none := by
  have hlen : (sortByFitnessDesc (pop.map (calculateFitness gs))).length = pop.length := by
    rw [length_sortByFitnessDesc, List.length_map]
  rcases hs : sortByFitnessDesc (pop.map (calculateFitness gs)) with _ | ⟨best, rest⟩
  · rw [hs] at hlen; simp at hlen; omega
  · rw [hs] at hlen
    have hec : eliteCount (best :: rest).length = 0 := by
      rw [hlen]; unfold eliteCount; omega
    have hneed : ∃ m, (best :: rest).length - 1 = m + 1 := by
      rw [hlen]; rcases hn with h | h <;> rw [h] <;> exact ⟨_, rfl⟩
    obtain ⟨m, hm⟩ := hneed
    rw [evolvePopulation, hs, evolveSorted]
    simp only [hec, List.take_zero, hm, Option.bind_eq_bind]
    rw [buildChildren_nil_none]
    rfl

theorem checkpointStep_cases (n : ℕ) (c : Car) (cp : Checkpoint) :
    checkpointStep n c cp = c ∨
    (pointToLineDistance c.position cp.start cp.last < 8 ∧
      cp.id = c.checkpointsPassed % n ∧
      checkpointStep n c cp = { c with checkpointsPassed := c.checkpointsPassed + 1 }) := by
  unfold checkpointStep
  split_ifs with h1 h2
  · exact Or.inr ⟨h1, h2, rfl⟩
  · exact Or.inl rfl
  · exact Or.inl rfl

theorem foldl_checkpointStep_unchanged (n : ℕ) (l : List Checkpoint) (c : Car)
    (h : ∀ cp ∈ l, pointToLineDistance c.position cp.start cp.last < 8 →
      cp.id ≠ c.checkpointsPassed % n) :
    l.foldl (checkpointStep n) c = c := by
  induction l with
  | nil => rfl
  | cons cp l ih =>
    have hstep : checkpointStep n c cp = c := by
      unfold checkpointStep
      split_ifs with h1 h2
      · exact absurd h2 (h cp (List.mem_cons_self _ _) h1)
      · rfl
      · rfl
    rw [List.foldl_cons, hstep]
    exact ih (fun cp' hcp' => h cp' (List.mem_cons_of_mem _ hcp'))

theorem foldl_checkpointStep_only_if (n : ℕ) (l : List Checkpoint) :
    ∀ c : Car, (l.foldl (checkpointStep n) c).checkpointsPassed ≠ c.checkpointsPassed →
      ∃ cp ∈ l, ∃ m, c.checkpointsPassed ≤ m ∧
        pointToLineDistance c.position cp.start cp.last < 8 ∧ cp.id = m % n := by
  induction l with
  | nil => intro c h; simp at h
  | cons cp l ih =>
    intro c h
    rcases checkpointStep_cases n c cp with hstep | ⟨hd, hid, _⟩
    · rw [List.foldl_cons, hstep] at h
      obtain ⟨cp', hm, m, hle, hdist, hid'⟩ := ih c h
      exact ⟨cp', List.mem_cons_of_mem _ hm, m, hle, hdist, hid'⟩
    · exact ⟨cp, List.mem_cons_self _ _, c.checkpointsPassed, le_refl _, hd, hid⟩

theorem sensorWallStep_inv (pos rayEnd : Vector2D) (L : ℝ) (sen : Sensor)
    (wall : Wall)
    (h : 0 ≤ sen.distance ∧ sen.distance ≤ L ∧ (sen.hit = false → sen.distance = L)) :
    0 ≤ (sensorWallStep pos rayEnd sen wall).distance ∧
    (sensorWallStep pos rayEnd sen wall).distance ≤ L ∧
    ((sensorWallStep pos rayEnd sen wall).hit = false →
      (sensorWallStep pos rayEnd sen wall).distance = L) := by
  cases hli : lineIntersection pos rayEnd wall.start wall.last with
  | none => simpa [sensorWallStep, hli] using h
  | some p =>
    by_cases hd : distance pos p < sen.distance
    · simp only [sensorWallStep, hli, hd, if_pos]
      refine ⟨Real.sqrt_nonneg _, le_trans (le_of_lt hd) h.2.1, ?_⟩
      intro hfalse
      simp at hfalse
    · simpa [sensorWallStep, hli, hd] using h

theorem foldl_sensorWallStep_inv (pos rayEnd : Vector2D) (L : ℝ)
    (walls : List Wall) :
    ∀ sen : Sensor,
      (0 ≤ sen.distance ∧ sen.distance ≤ L ∧ (sen.hit = false → sen.distance = L)) →
      0 ≤ (walls.foldl (sensorWallStep pos rayEnd) sen).distance ∧
      (walls.foldl (sensorWallStep pos rayEnd) sen).distance ≤ L ∧
      ((walls.foldl (sensorWallStep pos rayEnd) sen).hit = false →
        (walls.foldl (sensorWallStep pos rayEnd) sen).distance = L) := by
  induction walls with
  | nil => intro sen h; exact h
  | cons w ws ih =>
    intro sen h
    rw [List.foldl_cons]
    exact ih _ (sensorWallStep_inv pos rayEnd L sen w h)

theorem updateSensor_inv (pos : Vector2D) (ang : ℝ) (walls : List Wall)
    (s : Sensor) (h0 : 0 ≤ s.length) :
    0 ≤ (updateSensor pos ang walls s).distance ∧
    (updateSensor pos ang walls s).distance ≤ s.length ∧
    ((updateSensor pos ang walls s).hit = false →
      (updateSensor pos ang walls s).distance = s.length) := by
  unfold updateSensor
  exact foldl_sensorWallStep_inv pos _ s.length walls _ ⟨h0, le_refl _, fun _ => rfl⟩

theorem foldl_sensorWallStep_miss (pos rayEnd : Vector2D) (walls : List Wall)
    (h : ∀ w ∈ walls, lineIntersection pos rayEnd w.start w.last = none) :
    ∀ sen : Sensor, walls.foldl (sensorWallStep pos rayEnd) sen = sen := by
  induction walls with
  | nil => intro sen; rfl
  | cons w ws ih =>
    intro sen
    rw [List.foldl_cons]
    have hstep : sensorWallStep pos rayEnd sen w = sen := by
      simp [sensorWallStep, h w (List.mem_cons_self _ _)]
    rw [hstep]
    exact ih (fun w' hw' => h w' (List.mem_cons_of_mem _ hw')) sen

theorem updateSensor_miss (pos : Vector2D) (ang : ℝ) (walls : List Wall)
    (s : Sensor)
    (h : ∀ w ∈ walls, lineIntersection pos (sensorRayEnd pos ang s) w.start w.last = none) :
    updateSensor pos ang walls s =
      { s with endPoint := sensorRayEnd pos ang s, distance := s.length, hit := false } := by
  unfold updateSensor
  exact foldl_sensorWallStep_miss pos _ walls h _

theorem foldl_range_add (g : ℕ → ℝ) (b : ℝ) (n : ℕ) :
    (List.range n).foldl (fun s i => s + g i) b = b + ∑ i in Finset.range n, g i := by
  induction n with
  | zero => simp
  | succ n ih =>
    rw [List.range_succ, List.foldl_append, ih, List.foldl_cons, List.foldl_nil,
      Finset.sum_range_succ]
    ring

theorem setPopulationSize_nonpos (e : Engine) (size : ℤ) (r : ℕ → ℝ) (k : ℕ)
    (hsize : size ≤ 0) (hcars : e.gameState.cars ≠ []) :
    (setPopulationSize e size r k).gameState.cars = [] := by
  have hlen : 1 ≤ e.gameState.cars.length := List.length_pos.mpr hcars
  have hlenZ : (1 : ℤ) ≤ (e.gameState.cars.length : ℤ) := by exact_mod_cast hlen
  have hne : size ≠ (e.gameState.cars.length : ℤ) := by omega
  unfold setPopulationSize
  rw [if_pos hne]
  simp [createInitialPopulation, Int.toNat_of_nonpos hsize, buildCars]

/-! ## Claim theorems -/

/-- C1 counterexample: `allDeadPop2` is a non-empty population in which
every vehicle is dead with zero distance and zero checkpoints, yet
`evolvePopulation` does not return a next-generation population: the elite
pool `floor(2 * 0.3) = 0` is empty and the first parent lookup of the
reproduction loop fails (`eliteParents[...]` is `undefined` and reading
`.brain` throws), refuting the claim that the elite pool is always
non-empty and that an all-dead generation always evolves normally. -/
theorem c1_counterexample :
    allDeadPop2 ≠ [] ∧
    (∀ car ∈ allDeadPop2, car.alive = false ∧ car.distanceTraveled = 0 ∧
      car.checkpointsPassed = 0) ∧
    evolvePopulation rZero allDeadPop2 zeroVec 0 gsZero 0 = none := by
  refine ⟨by simp [allDeadPop2], ?_, ?_⟩
  · intro car hcar
    simp only [allDeadPop2, List.mem_cons, List.mem_singleton, List.not_mem_nil,
      or_false] at hcar
    rcases hcar with h | h <;> subst h <;> simp [deadCar]
  · exact evolvePopulation_fails_small rZero allDeadPop2 zeroVec 0 gsZero 0
      (Or.inl (by simp [allDeadPop2]))

/-- C1 (amended): for every input population of size 1 (where the
reproduction loop never runs) or of size at least 4 (where the elite pool
`floor(0.3 * n)` is non-empty), and every random stream with values in
`[0, 1)`, `evolvePopulation` terminates normally and returns a full
next-generation population of the input size — in particular for an
all-dead population; reproduction draws both parents only from the elite
pool, which is non-empty whenever the population has at least 4 cars.  For
populations of size 2 or 3 the elite pool is empty and reproduction
fails. -/
theorem c1_elite_pool_and_termination (r : ℕ → ℝ) (pop : List Car)
    (sp : Vector2D) (sa : ℝ) (gs : GameState) (k : ℕ)
    (hr : ∀ i, 0 ≤ r i ∧ r i < 1) (hn : pop.length = 1 ∨ 4 ≤ pop.length) :
    (4 ≤ pop.length → 1 ≤ eliteCount pop.length) ∧
    ∃ out, evolvePopulation r pop sp sa gs k = some out ∧
      out.length = pop.length := by
  refine ⟨fun h4 => by unfold eliteCount; omega, ?_⟩
  obtain ⟨out, hout, hlen, _⟩ := evolvePopulation_success r pop sp sa gs k hr hn
  exact ⟨out, hout, hlen⟩

/-- C1 witness: the amended theorem applied to the all-dead population of
size 4 and the constant-zero random stream. -/
theorem c1_witness :
    (∀ i, 0 ≤ rZero i ∧ rZero i < 1) ∧
    (allDeadPop4.length = 1 ∨ 4 ≤ allDeadPop4.length) ∧
    ((4 ≤ allDeadPop4.length → 1 ≤ eliteCount allDeadPop4.length) ∧
      ∃ out, evolvePopulation rZero allDeadPop4 zeroVec 0 gsZero 0 = some out ∧
        out.length = allDeadPop4.length) := by
  have hr : ∀ i, 0 ≤ rZero i ∧ rZero i < 1 := fun i => by norm_num [rZero]
  have hn : allDeadPop4.length = 1 ∨ 4 ≤ allDeadPop4.length :=
    Or.inr (by simp [allDeadPop4])
  exact ⟨hr, hn, c1_elite_pool_and_termination rZero allDeadPop4 zeroVec 0 gsZero 0 hr hn⟩

/-- C2 counterexample: `allDeadPop3` is a non-empty population for which
`evolvePopulation` returns no population at all (the elite pool
`floor(3 * 0.3) = 0` is empty and the parent lookup throws), refuting the
claim that every non-empty input population yields a population of the
input size. -/
theorem c2_counterexample :
    allDeadPop3 ≠ [] ∧
    evolvePopulation rZero allDeadPop3 zeroVec 0 gsZero 0 = none := by
  refine ⟨by simp [allDeadPop3], ?_⟩
  exact evolvePopulation_fails_small rZero allDeadPop3 zeroVec 0 gsZero 0
    (Or.inr (by simp [allDeadPop3]))

/-- C2 (amended): for every input population of size 1 or of size at least
4 (sizes 2 and 3 make the reproduction loop fail on the empty elite pool),
and every random stream with values in `[0, 1)`, `evolvePopulation`
returns a population of exactly the input size that contains a car whose
network parameters (both weight matrices and both bias vectors) equal,
element by element, those of a maximal-fitness individual of the input
population after fitness recomputation. -/
theorem c2_size_and_copy_exact_elitism (r : ℕ → ℝ) (pop : List Car)
    (sp : Vector2D) (sa : ℝ) (gs : GameState) (k : ℕ)
    (hr : ∀ i, 0 ≤ r i ∧ r i < 1) (hn : pop.length = 1 ∨ 4 ≤ pop.length) :
    ∃ out, evolvePopulation r pop sp sa gs k = some out ∧
      out.length = pop.length ∧
      ∃ b ∈ pop.map (calculateFitness gs),
        (∀ x ∈ pop.map (calculateFitness gs), x.fitness ≤ b.fitness) ∧
        ∃ c ∈ out,
          c.brain.weightsInputHidden = b.brain.weightsInputHidden ∧
          c.brain.weightsHiddenOutput = b.brain.weightsHiddenOutput ∧
          c.brain.biasHidden = b.brain.biasHidden ∧
          c.brain.biasOutput = b.brain.biasOutput := by
  obtain ⟨out, hout, hlen, b, hb, hbmax, c, hc, hcb⟩ :=
    evolvePopulation_success r pop sp sa gs k hr hn
  exact ⟨out, hout, hlen, b, hb, hbmax, c, hc, by rw [hcb], by rw [hcb],
    by rw [hcb], by rw [hcb]⟩

/-- C2 witness: the amended theorem applied to the all-dead population of
size 4 and the constant-zero random stream. -/
theorem c2_witness :
    (∀ i, 0 ≤ rZero i ∧ rZero i < 1) ∧
    (allDeadPop4.length = 1 ∨ 4 ≤ allDeadPop4.length) ∧
    ∃ out, evolvePopulation rZero allDeadPop4 zeroVec 0 gsZero 0 = some out ∧
      out.length = allDeadPop4.length ∧
      ∃ b ∈ allDeadPop4.map (calculateFitness gsZero),
        (∀ x ∈ allDeadPop4.map (calculateFitness gsZero), x.fitness ≤ b.fitness) ∧
        ∃ c ∈ out,
          c.brain.weightsInputHidden = b.brain.weightsInputHidden ∧
          c.brain.weightsHiddenOutput = b.brain.weightsHiddenOutput ∧
          c.brain.biasHidden = b.brain.biasHidden ∧
          c.brain.biasOutput = b.brain.biasOutput := by
  have hr : ∀ i, 0 ≤ rZero i ∧ rZero i < 1 := fun i => by norm_num [rZero]
  have hn : allDeadPop4.length = 1 ∨ 4 ≤ allDeadPop4.length :=
    Or.inr (by simp [allDeadPop4])
  exact ⟨hr, hn, c2_size_and_copy_exact_elitism rZero allDeadPop4 zeroVec 0 gsZero 0 hr hn⟩

/-- C3: `feedForward` fails with a dimension-mismatch error exactly when
the input length differs from `inputNodes`; on a network whose matrices
match its declared node counts and an input of the declared length it
returns the vector whose k-th entry is
`sigmoid(biasOutput[k] + Σ_j hidden[j] * W_ho[j][k])` with
`hidden[j] = sigmoid(biasHidden[j] + Σ_i inputs[i] * W_ih[i][j])` and
`sigmoid(x) = 1 / (1 + exp(-x))`. -/
theorem c3_feedForward_spec (net : NeuralNetwork) (ins : List ℝ)
    (hwf : net.weightsInputHidden.length = net.inputNodes ∧
      (∀ row ∈ net.weightsInputHidden, row.length = net.hiddenNodes) ∧
      net.weightsHiddenOutput.length = net.hiddenNodes ∧
      (∀ row ∈ net.weightsHiddenOutput, row.length = net.outputNodes) ∧
      net.biasHidden.length = net.hiddenNodes ∧
      net.biasOutput.length = net.outputNodes) :
    (feedForward net ins = none ↔ ins.length ≠ net.inputNodes) ∧
    (∀ x, sigmoid x = 1 / (1 + Real.exp (-x))) ∧
    (ins.length = net.inputNodes →
      ∃ out, feedForward net ins = some out ∧ out.length = net.outputNodes ∧
        ∀ kk, kk < net.outputNodes →
          out.getD kk 0 = sigmoid (net.biasOutput.getD kk 0 +
            ∑ j in Finset.range net.hiddenNodes,
              sigmoid (net.biasHidden.getD j 0 +
                ∑ i in Finset.range net.inputNodes,
                  ins.getD i 0 * ((net.weightsInputHidden.getD i []).getD j 0)) *
                ((net.weightsHiddenOutput.getD j []).getD kk 0))) := by
  clear hwf
  refine ⟨?_, fun x => rfl, ?_⟩
  · unfold feedForward
    split_ifs with h
    · simpa using h
    · simp [h]
  · intro hlen
    unfold feedForward
    rw [if_neg (by simp [hlen])]
    refine ⟨_, rfl, by simp, ?_⟩
    intro kk hkk
    have hlt : kk < ((List.range net.outputNodes).map (fun j =>
        sigmoid ((List.range net.hiddenNodes).foldl
          (fun sum i => sum + ((List.range net.hiddenNodes).map fun j' =>
            sigmoid ((List.range net.inputNodes).foldl
              (fun s i' => s + ins.getD i' 0 *
                ((net.weightsInputHidden.getD i' []).getD j' 0))
              (net.biasHidden.getD j' 0))).getD i 0 *
            ((net.weightsHiddenOutput.getD i []).getD j 0))
          (net.biasOutput.getD j 0)))).length := by
      simpa using hkk
    rw [List.getD_eq_getElem _ _ hlt, List.getElem_map, List.getElem_range,
      foldl_range_add]
    congr 1
    congr 1
    refine Finset.sum_congr rfl fun j hj => ?_
    have hj' : j < net.hiddenNodes := Finset.mem_range.mp hj
    have hjlt : j < ((List.range net.hiddenNodes).map fun j' =>
        sigmoid ((List.range net.inputNodes).foldl
          (fun s i' => s + ins.getD i' 0 *
            ((net.weightsInputHidden.getD i' []).getD j' 0))
          (net.biasHidden.getD j' 0))).length := by simpa using hj'
    rw [List.getD_eq_getElem _ _ hjlt, List.getElem_map, List.getElem_range,
      foldl_range_add]

/-- C3 witness: the theorem applied to the concrete well-formed 2-2-1
network `exNet` and an input of the declared length; the success case is
extracted through the failure iff. -/
theorem c3_witness :
    (exNet.weightsInputHidden.length = exNet.inputNodes ∧
      (∀ row ∈ exNet.weightsInputHidden, row.length = exNet.hiddenNodes) ∧
      exNet.weightsHiddenOutput.length = exNet.hiddenNodes ∧
      (∀ row ∈ exNet.weightsHiddenOutput, row.length = exNet.outputNodes) ∧
      exNet.biasHidden.length = exNet.hiddenNodes ∧
      exNet.biasOutput.length = exNet.outputNodes) ∧
    ([(1 : ℝ), 2].length = exNet.inputNodes) ∧
    feedForward exNet [(1 : ℝ), 2] ≠ none ∧
    feedForward exNet [(1 : ℝ)] = none := by
  have hwf : exNet.weightsInputHidden.length = exNet.inputNodes ∧
      (∀ row ∈ exNet.weightsInputHidden, row.length = exNet.hiddenNodes) ∧
      exNet.weightsHiddenOutput.length = exNet.hiddenNodes ∧
      (∀ row ∈ exNet.weightsHiddenOutput, row.length = exNet.outputNodes) ∧
      exNet.biasHidden.length = exNet.hiddenNodes ∧
      exNet.biasOutput.length = exNet.outputNodes := by
    refine ⟨rfl, ?_, rfl, ?_, rfl, rfl⟩
    · intro row hrow
      simp only [exNet, List.mem_cons, List.not_mem_nil, or_false,
        List.mem_singleton] at hrow
      rcases hrow with h | h <;> subst h <;> rfl
    · intro row hrow
      simp only [exNet, List.mem_cons, List.not_mem_nil, or_false,
        List.mem_singleton] at hrow
      rcases hrow with h | h <;> subst h <;> rfl
  have hlen : ([(1 : ℝ), 2].length = exNet.inputNodes) := rfl
  refine ⟨hwf, hlen, ?_, ?_⟩
  · intro hnone
    exact ((c3_feedForward_spec exNet [(1 : ℝ), 2] hwf).1.mp hnone) hlen
  · exact (c3_feedForward_spec exNet [(1 : ℝ)] hwf).1.mpr (by simp [exNet])

/-- C4: `updateCarPhysics` applies, in order, throttle scaled by `dt`,
instantaneous braking not scaled by `dt`, the snap-to-zero below 0.05,
multiplicative friction 0.90, the clamp to non-negative speed, and then
integrates the position along the heading with the final speed — and the
speed it leaves on the vehicle is never negative. -/
theorem c4_updateCarPhysics_spec (car : Car) (dt : ℝ) :
    (updateCarPhysics car dt).speed =
      max ((if car.speed + car.acceleration * 2.0 * dt - 6.0 * car.braking < 0.05
            then 0
            else car.speed + car.acceleration * 2.0 * dt - 6.0 * car.braking) * 0.90) 0 ∧
    (updateCarPhysics car dt).position.x =
      car.position.x + Real.cos car.angle * (updateCarPhysics car dt).speed * dt ∧
    (updateCarPhysics car dt).position.y =
      car.position.y + Real.sin car.angle * (updateCarPhysics car dt).speed * dt ∧
    (updateCarPhysics car dt).acceleration = car.acceleration ∧
    (updateCarPhysics car dt).braking = car.braking ∧
    (updateCarPhysics car dt).angle = car.angle ∧
    0 ≤ (updateCarPhysics car dt).speed := by
  refine ⟨rfl, rfl, rfl, rfl, rfl, rfl, ?_⟩
  exact le_max_right _ 0

/-- C5: `checkCheckpointCollisions` leaves a vehicle completely unchanged
when no in-radius checkpoint carries the id expected from the vehicle's
counter (contact with out-of-order checkpoints is a no-op: no progress and
no penalty); and whenever the counter does change, some checkpoint of the
track was within the collision radius with the id expected at the moment
of its test (`m` is the counter value at that moment). -/
theorem c5_checkpoint_in_order (cps : List Checkpoint) (car : Car)
    (h : ∀ cp ∈ cps, pointToLineDistance car.position cp.start cp.last < 8 →
      cp.id ≠ car.checkpointsPassed % cps.length) :
    checkCheckpointCollisions cps car = car ∧
    ∀ car' : Car,
      (checkCheckpointCollisions cps car').checkpointsPassed ≠ car'.checkpointsPassed →
      ∃ cp ∈ cps, ∃ m, car'.checkpointsPassed ≤ m ∧
        pointToLineDistance car'.position cp.start cp.last < 8 ∧
        cp.id = m % cps.length := by
  constructor
  · exact foldl_checkpointStep_unchanged _ cps car h
  · intro car' h'
    exact foldl_checkpointStep_only_if _ cps car' h'

/-- C5 witness: a car expecting checkpoint 0 that contacts only checkpoint
id 5 (its segment passes through the car's position) keeps its counter —
the theorem applied to the one-checkpoint track `[exCheckpoint5]` and
`deadCar` (counter 0). -/
theorem c5_witness :
    (∀ cp ∈ [exCheckpoint5],
      pointToLineDistance deadCar.position cp.start cp.last < 8 →
      cp.id ≠ deadCar.checkpointsPassed % [exCheckpoint5].length) ∧
    checkCheckpointCollisions [exCheckpoint5] deadCar = deadCar := by
  have h : ∀ cp ∈ [exCheckpoint5],
      pointToLineDistance deadCar.position cp.start cp.last < 8 →
      cp.id ≠ deadCar.checkpointsPassed % [exCheckpoint5].length := by
    intro cp hcp _
    simp only [List.mem_singleton] at hcp
    subst hcp
    simp [exCheckpoint5, deadCar]
  exact ⟨h, (c5_checkpoint_in_order [exCheckpoint5] deadCar h).1⟩

/-- C6: after `updateSensors`, every sensor's distance lies between 0 and
its configured max length; a sensor that did not hit reports exactly the
max length; and when no wall intersects the sensor's full-length ray the
sensor reports the max length with `hit = false`. -/
theorem c6_sensor_bounds (car : Car) (walls : List Wall)
    (h0 : ∀ s ∈ car.sensors, 0 ≤ s.length) :
    (updateSensors car walls).sensors =
      car.sensors.map (updateSensor car.position car.angle walls) ∧
    ∀ s ∈ car.sensors,
      0 ≤ (updateSensor car.position car.angle walls s).distance ∧
      (updateSensor car.position car.angle walls s).distance ≤ s.length ∧
      ((updateSensor car.position car.angle walls s).hit = false →
        (updateSensor car.position car.angle walls s).distance = s.length) ∧
      ((∀ w ∈ walls, lineIntersection car.position
          (sensorRayEnd car.position car.angle s) w.start w.last = none) →
        (updateSensor car.position car.angle walls s).distance = s.length ∧
        (updateSensor car.position car.angle walls s).hit = false) := by
  refine ⟨rfl, ?_⟩
  intro s hs
  obtain ⟨h1, h2, h3⟩ := updateSensor_inv car.position car.angle walls s (h0 s hs)
  refine ⟨h1, h2, h3, ?_⟩
  intro hmiss
  rw [updateSensor_miss car.position car.angle walls s hmiss]
  exact ⟨rfl, rfl⟩

/-- C6 witness: the theorem applied to `sensorCar` (one forward sensor of
length 300) on a track with no walls. -/
theorem c6_witness :
    (∀ s ∈ sensorCar.sensors, 0 ≤ s.length) ∧
    ((updateSensors sensorCar []).sensors =
      sensorCar.sensors.map (updateSensor sensorCar.position sensorCar.angle []) ∧
    ∀ s ∈ sensorCar.sensors,
      0 ≤ (updateSensor sensorCar.position sensorCar.angle [] s).distance ∧
      (updateSensor sensorCar.position sensorCar.angle [] s).distance ≤ s.length ∧
      ((updateSensor sensorCar.position sensorCar.angle [] s).hit = false →
        (updateSensor sensorCar.position sensorCar.angle [] s).distance = s.length) ∧
      ((∀ w ∈ ([] : List Wall), lineIntersection sensorCar.position
          (sensorRayEnd sensorCar.position sensorCar.angle s) w.start w.last = none) →
        (updateSensor sensorCar.position sensorCar.angle [] s).distance = s.length ∧
        (updateSensor sensorCar.position sensorCar.angle [] s).hit = false)) := by
  have h0 : ∀ s ∈ sensorCar.sensors, 0 ≤ s.length := by
    intro s hs
    simp only [sensorCar, deadCar, List.mem_singleton] at hs
    subst hs
    simp [exSensor]
  exact ⟨h0, c6_sensor_bounds sensorCar [] h0⟩

/-- C7 counterexample: on the concrete engine `exEngine` (population of
one car, limit 15000), `setPopulationSize 0` does not retain the prior
population (it replaces it by the empty population) and
`setMaxGenerationTime (-1)` does not retain the prior limit (it stores
-1), refuting the claim that non-positive arguments are rejected with the
prior state retained. -/
theorem c7_counterexample :
    (setPopulationSize exEngine 0 rZero 0).gameState.cars ≠ exEngine.gameState.cars ∧
    (setMaxGenerationTime exEngine (-1)).maxGenerationTime ≠ exEngine.maxGenerationTime := by
  constructor
  · rw [setPopulationSize_nonpos exEngine 0 rZero 0 (le_refl 0) (by simp [exEngine])]
    simp [exEngine]
  · show (-1 : ℝ) ≠ exEngine.maxGenerationTime
    show (-1 : ℝ) ≠ 15000
    norm_num

/-- C7 (amended): neither configuration mutator validates its argument:
`setPopulationSize` with a non-positive size (necessarily different from
the length of a non-empty population) replaces the population by the empty
population, and `setMaxGenerationTime` stores any limit, non-positive
included, into both the engine and the state. -/
theorem c7_mutators_accept_nonpositive (e : Engine) (size : ℤ) (r : ℕ → ℝ)
    (k : ℕ) (hsize : size ≤ 0) (hcars : e.gameState.cars ≠ []) :
    (setPopulationSize e size r k).gameState.cars = [] ∧
    ∀ limit : ℝ, (setMaxGenerationTime e limit).maxGenerationTime = limit ∧
      (setMaxGenerationTime e limit).gameState.maxTime = limit :=
  ⟨setPopulationSize_nonpos e size r k hsize hcars, fun _ => ⟨rfl, rfl⟩⟩

/-- C7 witness: the amended theorem applied to `exEngine` and size 0. -/
theorem c7_witness :
    ((0 : ℤ) ≤ 0) ∧ exEngine.gameState.cars ≠ [] ∧
    ((setPopulationSize exEngine 0 rZero 0).gameState.cars = [] ∧
      ∀ limit : ℝ, (setMaxGenerationTime exEngine limit).maxGenerationTime = limit ∧
        (setMaxGenerationTime exEngine limit).gameState.maxTime = limit) :=
  ⟨le_refl 0, by simp [exEngine],
    c7_mutators_accept_nonpositive exEngine 0 rZero 0 (le_refl 0) (by simp [exEngine])⟩

/-- C8: `mutate` never modifies its input (it operates on a fresh copy and
returns a new network); in particular `deepCopy` followed by `mutate` of
the copy with rate 0 yields a network numerically identical to the
original — for any random stream with non-negative draws, no parameter is
perturbed — and the copy itself equals the original. -/
theorem c8_mutate_zero_rate (r : ℕ → ℝ) (strength : ℝ) (net : NeuralNetwork)
    (k : ℕ) (hr : ∀ i, 0 ≤ r i) :
    copyNetwork net = net ∧
    (mutate r 0 strength (copyNetwork net) k).1 = net := by
  refine ⟨copyNetwork_eq net, ?_⟩
  rw [copyNetwork_eq net]
  unfold mutate
  rw [copyNetwork_eq net]
  cases net with
  | mk a b c wih who bh bo =>
    simp [mutateMatrix_zero_rate r strength hr, mutateList_zero_rate r strength hr]

/-- C8 witness: the theorem applied to the concrete network `exBrain` and
the constant-zero random stream. -/
theorem c8_witness :
    (∀ i, 0 ≤ rZero i) ∧ copyNetwork exBrain = exBrain ∧
    (mutate rZero 0 0.7 (copyNetwork exBrain) 0).1 = exBrain := by
  have hr : ∀ i, 0 ≤ rZero i := fun i => le_of_eq (by norm_num [rZero])
  have h := c8_mutate_zero_rate rZero 0.7 exBrain 0 hr
  exact ⟨hr, h.1, h.2⟩

/-- C9: `updateCarPhysics` never reads the per-vehicle `maxSpeed` and
`friction` fields — two vehicles identical except for those fields end the
step with identical speed and position — and the speed is never clamped to
`maxSpeed`: the concrete car `fastCar` leaves the step with speed above
its own `maxSpeed`. -/
theorem c9_maxSpeed_friction_unread :
    (∀ (car : Car) (dt m f : ℝ),
      (updateCarPhysics { car with maxSpeed := m, friction := f } dt).speed =
        (updateCarPhysics car dt).speed ∧
      (updateCarPhysics { car with maxSpeed := m, friction := f } dt).position =
        (updateCarPhysics car dt).position) ∧
    fastCar.maxSpeed < (updateCarPhysics fastCar 1).speed := by
  constructor
  · intro car dt m f
    exact ⟨rfl, rfl⟩
  · show fastCar.maxSpeed <
      max ((if fastCar.speed + fastCar.acceleration * 2.0 * 1 - 6.0 * fastCar.braking < 0.05
            then 0
            else fastCar.speed + fastCar.acceleration * 2.0 * 1 - 6.0 * fastCar.braking) * 0.90) 0
    rw [if_neg (by norm_num [fastCar, deadCar])]
    rw [max_eq_left (by norm_num [fastCar, deadCar])]
    norm_num [fastCar, deadCar]

/-- C10: while running, any `update` within the first 3000 milliseconds
after the startup anchor only overwrites `timeElapsed` with the
whole-seconds countdown `ceil(remaining / 1000)` and returns the state —
cars, generation clock, generation counter and wall-clock anchor are all
untouched; and the startup anchor is re-set to the current time by
`start`, by `reset` and by every successful generation rollover. -/
theorem c10_startup_window (e : Engine) (t : ℝ) (r : ℕ → ℝ) (k : ℕ)
    (hrun : e.gameState.isRunning = true) (hwin : t - e.gameStartTime < 3000) :
    update e t r k = some { e with gameState := { e.gameState with
      timeElapsed := ((⌈(3000 - (t - e.gameStartTime)) / 1000⌉ : ℤ) : ℝ) } } ∧
    (∀ (e' : Engine) (t' : ℝ), (start e' t').gameStartTime = t') ∧
    (∀ (e' : Engine) (t' : ℝ) (r' : ℕ → ℝ) (k' : ℕ),
      (reset e' t' r' k').gameStartTime = t') ∧
    (∀ (e' : Engine) (t' : ℝ) (r' : ℕ → ℝ) (k' : ℕ) (e'' : Engine),
      nextGeneration e' t' r' k' = some e'' → e''.gameStartTime = t') := by
  refine ⟨?_, fun e' t' => rfl, ?_, ?_⟩
  · unfold update startupDelay
    rw [hrun]
    rw [if_neg (by simp), if_pos hwin]
  · intro e' t' r' k'
    simp only [reset]
    split_ifs <;> rfl
  · intro e' t' r' k' e'' h
    unfold nextGeneration at h
    rcases hev : evolvePopulation r'
        (e'.gameState.cars.filter fun car => car.id != "player")
        e'.track.startPosition e'.track.startAngle e'.gameState k' with _ | newCars
    · simp [hev] at h
    · simp only [hev, Option.bind_eq_bind, Option.some_bind, Option.some.injEq] at h
      rw [← h]
      split_ifs <;> rfl

/-- C10 witness: the theorem applied to the running example engine
(startup anchor 0) at wall-clock time 1000, inside the startup window. -/
theorem c10_witness :
    exRunningEngine.gameState.isRunning = true ∧
    ((1000 : ℝ) - exRunningEngine.gameStartTime < 3000) ∧
    update exRunningEngine 1000 rZero 0 = some { exRunningEngine with
      gameState := { exRunningEngine.gameState with
        timeElapsed :=
          ((⌈(3000 - ((1000 : ℝ) - exRunningEngine.gameStartTime)) / 1000⌉ : ℤ) : ℝ) } } := by
  have hrun : exRunningEngine.gameState.isRunning = true := rfl
  have hwin : (1000 : ℝ) - exRunningEngine.gameStartTime < 3000 := by
    norm_num [exRunningEngine, exEngine]
  exact ⟨hrun, hwin,
    (c10_startup_window exRunningEngine 1000 rZero 0 hrun hwin).1⟩
